import Mathlib

/-!
Verification development for the nghttp client in src/nghttp.cc.
The definitions below are shallow embeddings of the functions of that file;
machine integers are modelled by Nat and Int, C strings by String, and the
external collaborators (uri parser, html link extractor, gzip inflater,
event loop) by explicit oracle arguments, following the contracts stated in
the specification.
-/

set_option maxRecDepth 8000

namespace Nghttp

/-- ASCII lowercase of one character, as C tolower behaves on ASCII input. -/
def asciiLower (c : Char) : Char :=
  if 'A' ≤ c && c ≤ 'Z' then Char.ofNat (c.toNat + 32) else c

/-- Case-insensitive string equality, modelling util::strieq. -/
def strieq (a b : String) : Bool :=
  a.data.map asciiLower == b.data.map asciiLower

/-- Fields of struct Config used by the claims, with the values given to them by
    the default constructor in nghttp.cc. -/
structure Config where
  null_out : Bool
  multiply : Int
  timeout : Int
  output_upper_thres : Nat
  deriving DecidableEq

/-- The default constructor of Config: null_out false, multiply 1, timeout -1,
    output_upper_thres 1024*1024. -/
def Config.construct : Config :=
  { null_out := false, multiply := 1, timeout := -1, output_upper_thres := 1024 * 1024 }

/-- Handling of the -t command line option in main:
    config.timeout = atoi(optarg) * 1000 (the field is documented as milliseconds). -/
def timeoutFromOpt (n : Int) : Int := n * 1000

/-- The C struct timeval: a seconds field and a microseconds field. -/
structure Timeval where
  sec : Int
  usec : Int
  deriving DecidableEq

/-- Timeout installation in HttpClient::initiate_connection: when config.timeout is
    not -1, the code builds timeval tv = { config.timeout, 0 } and installs tv as
    both the read timeout and the write timeout of the bufferevent. The first
    member of a timeval is tv_sec, so the installed duration in seconds is the
    stored config.timeout value. -/
def installedTimeout (cfgTimeout : Int) : Option Timeval :=
  if cfgTimeout ≠ -1 then some { sec := cfgTimeout, usec := 0 } else none

/-- Error sentinel NGHTTP2_ERR_WOULDBLOCK. -/
def NGHTTP2_ERR_WOULDBLOCK : Int := -504

/-- Error sentinel NGHTTP2_ERR_CALLBACK_FAILURE. -/
def NGHTTP2_ERR_CALLBACK_FAILURE : Int := -902

/-- HttpClient::sendcb. The outgoing evbuffer is modelled by its list of bytes and
    the possibility that evbuffer_add fails is the boolean addFails. If the buffer
    already holds more than the threshold, return WOULDBLOCK and append nothing;
    otherwise append, returning the byte count, or CALLBACK_FAILURE when the append
    fails. The result is the new outgoing buffer and the int return value. -/
def sendcb (thres : Nat) (output data : List Nat) (addFails : Bool) : List Nat × Int :=
  if output.length > thres then (output, NGHTTP2_ERR_WOULDBLOCK)
  else if addFails then (output, NGHTTP2_ERR_CALLBACK_FAILURE)
  else (output ++ data, (data.length : Int))

/-- A parsed uri (struct http_parser_url): the fields used by the claims, each
    absent when the corresponding bit of field_set is clear. -/
structure ParsedUrl where
  scheme : Option String
  host : Option String
  port : Option Nat
  deriving DecidableEq

/-- get_default_port: 443 for scheme https, 80 for scheme http, 443 otherwise;
    the comparisons are the exact byte comparisons done by fieldeq against a
    literal, so an absent scheme falls through to 443. -/
def get_default_port (u : ParsedUrl) : Nat :=
  if u.scheme = some "https" then 443
  else if u.scheme = some "http" then 80
  else 443

/-- Effective port: the port field when present, otherwise the scheme default,
    as computed at every call site of get_default_port. -/
def effectivePort (u : ParsedUrl) : Nat :=
  match u.port with
  | some p => p
  | none => get_default_port u

/-- Raw value of the port member of http_parser_url: http_parser_parse_url zeroes
    the member on entry and writes it only when a port is present, so reading it
    for a uri without a port yields 0. -/
def rawPort (u : ParsedUrl) : Nat := u.port.getD 0

/-- fieldeq on one field of two parsed uris: equal when both are absent, unequal
    when exactly one is absent, byte equality of the field text otherwise. -/
def fieldeq2 (a b : Option String) : Bool :=
  match a, b with
  | none, none => true
  | none, some _ => false
  | some _, none => false
  | some x, some y => x == y

/-- fieldeq of one field against a C string t: an absent field equals only an
    empty t, a present field never equals an empty t, byte equality otherwise. -/
def fieldeqStr (f : Option String) (t : String) : Bool :=
  match f with
  | none => t == ""
  | some x => if t == "" then false else x == t

/-- get_uri_field: the field text when present, the empty string otherwise. -/
def get_uri_field (f : Option String) : String := f.getD ""

/-- strip_fragment: the characters of the uri before the first # character. -/
def strip_fragment (s : String) : String :=
  { data := s.data.takeWhile (fun c => c ≠ '#') }

/-- porteq: the effective ports of the two parsed uris are equal. -/
def porteq (u1 u2 : ParsedUrl) : Bool := effectivePort u1 == effectivePort u2

/-- One command line uri as seen by run: the fragment-stripped text and the result
    of http_parser_parse_url on that text (none when parsing fails). The uri
    parser is an external collaborator, so its result is part of the input. -/
structure RunItem where
  uri : String
  parsed : Option ParsedUrl
  deriving DecidableEq

/-- One call to communicate made by run: the host and port arguments and the uris
    of the request vector handed over (the shared data provider argument is not
    modelled since no claim depends on it). -/
structure SessionCall where
  host : String
  port : Nat
  uris : List String
  deriving DecidableEq

/-- Loop state of run: prev_host, prev_port, the request vector being filled, and
    the communicate calls made so far. -/
structure RunState where
  prev_host : String
  prev_port : Nat
  pending : List String
  sessions : List SessionCall
  deriving DecidableEq

/-- One iteration of the uri loop in run: a uri whose parse fails or that lacks a
    scheme is skipped; otherwise the effective port is computed, and if the host
    field differs from prev_host or the raw port member differs from prev_port,
    any pending requests are flushed into a communicate call and prev_host and
    prev_port are reset to the current host text and effective port; the uri is
    then appended to the pending request vector. -/
def runStep (st : RunState) (item : RunItem) : RunState :=
  match item.parsed with
  | none => st
  | some u =>
    if u.scheme.isSome then
      let port := effectivePort u
      let st1 :=
        if !(fieldeqStr u.host st.prev_host) || rawPort u != st.prev_port then
          let st0 :=
            if st.pending.isEmpty then st
            else
              { st with
                sessions := st.sessions ++
                  [{ host := st.prev_host, port := st.prev_port, uris := st.pending }],
                pending := [] }
          { st0 with prev_host := get_uri_field u.host, prev_port := port }
        else st
      { st1 with pending := st1.pending ++ [item.uri] }
    else st

/-- The grouping performed by run: fold runStep from the initial state (empty
    prev_host, prev_port 0, nothing pending) and flush a final nonempty request
    vector into a last communicate call. -/
def runSessions (items : List RunItem) : List SessionCall :=
  let st := items.foldl runStep
    { prev_host := "", prev_port := 0, pending := [], sessions := [] }
  if st.pending.isEmpty then st.sessions
  else st.sessions ++
    [{ host := st.prev_host, port := st.prev_port, uris := st.pending }]

/-- Modelled from the spec: input uris are scanned in order and a new session
    begins exactly when the pair of host text and effective port differs from the
    pair of the preceding accepted uri; uris without a scheme or that fail to
    parse are skipped. Written from the words of the specification, for
    comparison with runSessions. -/
def specSessions (items : List RunItem) : List SessionCall :=
  (items.foldl
    (fun acc item =>
      match item.parsed with
      | none => acc
      | some u =>
        if u.scheme.isSome then
          let h := get_uri_field u.host
          let p := effectivePort u
          match acc with
          | [] => [{ host := h, port := p, uris := [item.uri] }]
          | s :: rest =>
            if s.host = h && s.port == p then
              { s with uris := s.uris ++ [item.uri] } :: rest
            else { host := h, port := p, uris := [item.uri] } :: s :: rest
        else acc)
    []).reverse

/-- The uri http://h with no explicit port, as parsed. -/
def c1Item : RunItem :=
  { uri := "http://h", parsed := some { scheme := some "http", host := some "h", port := none } }

/-- Test applied to one header value in check_response_header: the value equals
    gzip or deflate, case-insensitively. -/
def gzipValue (v : String) : Bool := strieq v "gzip" || strieq v "deflate"

/-- Header-block scan of check_response_header: the pair of the gzip flag and the
    last stored :status value threaded through the block. The gzip flag starts
    false and every content-encoding header overwrites it with whether its own
    value is gzip or deflate; otherwise a :status header stores its value. -/
def scanHeaders (nva : List (String × String)) : Bool × Option String :=
  nva.foldl
    (fun st nv =>
      if strieq nv.1 "content-encoding" then (gzipValue nv.2, st.2)
      else if strieq nv.1 ":status" then (st.1, some nv.2)
      else st)
    (false, none)

/-- Whether the request has a content decoder after check_response_header ran on
    the reply header block: it already had one, or the final gzip flag is set
    (the code runs init_inflater when gzip holds and no inflater exists yet). -/
def decoderAfter (inflater0 : Bool) (nva : List (String × String)) : Bool :=
  inflater0 || (scanHeaders nva).1

/-- Decision by the first content-encoding header of the block, as the claim
    states it. Written from the words of the claim, for comparison. -/
def firstCEGzip (nva : List (String × String)) : Bool :=
  match nva.find? (fun nv => strieq nv.1 "content-encoding") with
  | some nv => gzipValue nv.2
  | none => false

/-- Decision by the last content-encoding header of the block. -/
def lastCEGzip (nva : List (String × String)) : Bool :=
  match nva.reverse.find? (fun nv => strieq nv.1 "content-encoding") with
  | some nv => gzipValue nv.2
  | none => false

/-- A reply header block carrying two content-encoding headers, gzip first. -/
def c3Block : List (String × String) :=
  [("content-encoding", "gzip"), ("content-encoding", "identity")]

/-- Request vector and path cache of HttpClient, the parts read and written by
    add_request. Each request is recorded as its uri and its recursion level. -/
structure Client7 where
  reqvec : List (String × Int)
  path_cache : List String
  deriving DecidableEq

/-- HttpClient::add_request (the parsed-url, data provider and data length
    arguments do not influence admission and are not recorded here): if the uri
    is in the path cache, return false and change nothing; otherwise insert the
    uri into the cache only when config.multiply is 1, append the request, and
    return true. -/
def add_request (multiply : Int) (c : Client7) (uri : String) (level : Int) :
    Bool × Client7 :=
  if uri ∈ c.path_cache then (false, c)
  else
    (true,
     { reqvec := c.reqvec ++ [(uri, level)],
       path_cache := if multiply = 1 then uri :: c.path_cache else c.path_cache })

/-- The admission loop of communicate: add_request called k times with one uri. -/
def addLoop (multiply : Int) (c : Client7) (uri : String) (level : Int) : Nat → Client7
  | 0 => c
  | k + 1 => (add_request multiply (addLoop multiply c uri level k) uri level).2

/-- Request state touched by the frame callbacks. -/
structure Req4 where
  inflater : Bool
  level : Int
  htmlAttached : Bool
  status : String
  synReplyRecorded : Bool
  completeRecorded : Bool
  deriving DecidableEq

/-- The client state dispatched to by the frame callbacks: the streams map of
    HttpClient (stream id to request index, filled by check_stream_id when
    HEADERS opening a stream is sent), the per-stream user data of the framing
    session (set by nghttp2_submit_request, absent for server-pushed streams),
    the request vector, the complete counter, the bytes written to standard
    output and the error codes of submitted GOAWAY frames. -/
structure Client4 where
  streams : List (Int × Nat)
  userData : List (Int × Nat)
  requests : List Req4
  complete : Nat
  output : List Nat
  goaways : List Nat
  deriving DecidableEq

/-- Lookup in a stream map (std::map find or session stream user data). -/
def lookupStream (m : List (Int × Nat)) (sid : Int) : Option Nat :=
  (m.find? (fun e => e.1 == sid)).map (fun e => e.2)

/-- Apply a function to the request at one index of the request vector. -/
def setReq (rs : List Req4) (i : Nat) (f : Req4 → Req4) : List Req4 :=
  match rs.get? i with
  | none => rs
  | some r => rs.set i (f r)

/-- Effect of check_response_header on the bound request: the status and gzip
    results of the header scan are applied, the decoder is initialized when the
    gzip flag holds and no decoder exists, and the html extractor is attached
    when asset download is on and the request is at level 0. -/
def applyResponseHeader (getAssets : Bool) (nva : List (String × String)) (r : Req4) : Req4 :=
  let s := scanHeaders nva
  { r with
    status := (s.2).getD r.status,
    inflater := r.inflater || s.1,
    htmlAttached := r.htmlAttached || (getAssets && r.level == 0) }

/-- check_response_header: nothing happens unless the frame is a reply HEADERS
    frame; for a reply the stream user data is looked up, and when it is absent
    (a server-pushed stream) the function returns silently, otherwise the header
    scan is applied to the bound request. -/
def check_response_header4 (getAssets : Bool) (isReplyHeaders : Bool) (c : Client4)
    (sid : Int) (nva : List (String × String)) : Client4 :=
  if isReplyHeaders then
    match lookupStream c.userData sid with
    | none => c
    | some i => { c with requests := setReq c.requests i (applyResponseHeader getAssets nva) }
  else c

/-- on_frame_recv_callback2: for a reply HEADERS frame the stream user data is
    looked up and assert(req) is executed, so an absent binding aborts (the
    error value models the failed assertion); with a binding the reply time is
    recorded and check_response_header runs. For any other frame only
    check_response_header runs, which does nothing. -/
def on_frame_recv_callback2 (getAssets : Bool) (isReplyHeaders : Bool) (c : Client4)
    (sid : Int) (nva : List (String × String)) : Except String Client4 :=
  if isReplyHeaders then
    match lookupStream c.userData sid with
    | none => Except.error "assertion req failed in on_frame_recv_callback2"
    | some i =>
      let c1 := { c with requests := setReq c.requests i (fun r => { r with synReplyRecorded := true }) }
      Except.ok (check_response_header4 getAssets isReplyHeaders c1 sid nva)
  else Except.ok (check_response_header4 getAssets isReplyHeaders c sid nva)

/-- on_data_chunk_recv_callback: an unknown stream id is ignored; a bound request
    has the chunk written to standard output (after decompression when a decoder
    is attached: the gzip inflater is an external collaborator, so the bytes it
    would produce are supplied by the inflated oracle argument), unless null_out
    is set. The html link walk performed on the same bytes is the admission loop
    modelled separately by processLinks. -/
def on_data_chunk_recv4 (nullOut : Bool) (inflated : List Nat) (c : Client4) (sid : Int)
    (data : List Nat) : Client4 :=
  match lookupStream c.streams sid with
  | none => c
  | some i =>
    match c.requests.get? i with
    | none => c
    | some r =>
      let out := if r.inflater then inflated else data
      if nullOut then c else { c with output := c.output ++ out }

/-- on_stream_close_callback: an unknown stream id is ignored; a bound request
    records its completion time, the complete counter is incremented and, when
    complete equals the size of the request vector, a GOAWAY frame with error
    code NGHTTP2_NO_ERROR is submitted. -/
def on_stream_close4 (c : Client4) (sid : Int) : Client4 :=
  match lookupStream c.streams sid with
  | none => c
  | some i =>
    let c1 := { c with
      requests := setReq c.requests i (fun r => { r with completeRecorded := true }),
      complete := c.complete + 1 }
    if c1.complete = c1.requests.length then { c1 with goaways := c1.goaways ++ [0] } else c1

/-- A client with one request bound to stream 1; stream 2 is unbound. -/
def c4Client : Client4 :=
  { streams := [(1, 0)], userData := [(1, 0)],
    requests := [{ inflater := false, level := 0, htmlAttached := false, status := "",
                   synReplyRecorded := false, completeRecorded := false }],
    complete := 0, output := [], goaways := [] }

/-- Error code NGHTTP2_NO_ERROR. -/
def NGHTTP2_NO_ERROR : Nat := 0

/-- Completion bookkeeping of one session, as driven by on_stream_close_callback:
    the ids of the requests whose stream has not closed yet, a supply of fresh
    ids for requests admitted by asset discovery, the size of the request
    vector, the complete counter, and the error codes of submitted GOAWAY
    frames. -/
structure Sess5 where
  pendingIds : List Nat
  nextId : Nat
  total : Nat
  complete : Nat
  goaways : List Nat
  deriving DecidableEq

/-- One stream-close event processed by on_stream_close_callback: the event
    carries the closing stream id and the number k of new requests that the
    final update_html_parser tick admits (they join the request vector before
    the counter moves). When the id is bound: the request vector grows by k, the
    stream leaves the pending set, complete is incremented and, if complete now
    equals the request count, GOAWAY with NGHTTP2_NO_ERROR is submitted. An
    unknown id changes nothing. -/
def closeStep (s : Sess5) (ev : Nat × Nat) : Sess5 :=
  if ev.1 ∈ s.pendingIds then
    let total := s.total + ev.2
    let pendingIds := (s.pendingIds.erase ev.1) ++ (List.range ev.2).map (fun j => s.nextId + j)
    let complete := s.complete + 1
    { pendingIds := pendingIds, nextId := s.nextId + ev.2, total := total,
      complete := complete,
      goaways := if complete = total then s.goaways ++ [NGHTTP2_NO_ERROR] else s.goaways }
  else s

/-- A whole session execution: fold the close events in order. -/
def runCloses (s : Sess5) (evs : List (Nat × Nat)) : Sess5 := evs.foldl closeStep s

/-- Session start: n submitted requests, none complete, no GOAWAY yet. -/
def initSess (n : Nat) : Sess5 :=
  { pendingIds := List.range n, nextId := n, total := n, complete := 0, goaways := [] }

/-- Invariant tying the GOAWAY submissions to completion: the complete counter
    plus the open streams always account for the whole request vector, and
    exactly one GOAWAY(NO_ERROR) has been submitted iff no stream is open. -/
def sessInv (s : Sess5) : Prop :=
  s.complete + s.pendingIds.length = s.total ∧
  s.goaways = (if s.pendingIds = [] then [NGHTTP2_NO_ERROR] else [])

/-- A request as held by asset discovery: the stored uri text, its parsed form
    and its recursion level. -/
structure Req8 where
  uri : String
  u : ParsedUrl
  level : Int
  deriving DecidableEq

/-- Request vector and path cache of HttpClient as seen by asset admission. -/
structure Client8 where
  reqvec : List Req8
  path_cache : List String
  deriving DecidableEq

/-- HttpClient::add_request, recording the parsed uri and the level (assets are
    admitted with a null data provider, so no body is recorded). -/
def add_request8 (multiply : Int) (c : Client8) (uri : String) (u : ParsedUrl)
    (level : Int) : Bool × Client8 :=
  if uri ∈ c.path_cache then (false, c)
  else
    (true,
     { reqvec := c.reqvec ++ [{ uri := uri, u := u, level := level }],
       path_cache := if multiply = 1 then uri :: c.path_cache else c.path_cache })

/-- One link reported by the html extractor (an external collaborator): the raw
    link text and the result of http_parser_parse_url on its fragment-stripped
    form (none when parsing fails). -/
structure Link where
  raw : String
  parsed : Option ParsedUrl
  deriving DecidableEq

/-- One iteration of the link loop of the update html parser function in
    nghttp.cc: the fragment of the raw link is stripped, the result is parsed,
    and when parsing succeeds and scheme, host and effective port all equal
    those of the linking request, add_request is called at the parent level plus
    one (each successful admission is then submitted into the same session). -/
def linkStep (multiply : Int) (parent : Req8) (c : Client8) (l : Link) : Client8 :=
  let uri := strip_fragment l.raw
  match l.parsed with
  | none => c
  | some u =>
    if fieldeq2 u.scheme parent.u.scheme && fieldeq2 u.host parent.u.host &&
        porteq u parent.u then
      (add_request8 multiply c uri u (parent.level + 1)).2
    else c

/-- The whole link admission loop: fold linkStep over the reported links. -/
def processLinks (multiply : Int) (parent : Req8) (c : Client8) (links : List Link) :
    Client8 :=
  links.foldl (linkStep multiply parent) c

/-- Level 0 request for http://h/ used as the asset discovery parent. -/
def c8Parent : Req8 :=
  { uri := "http://h/",
    u := { scheme := some "http", host := some "h", port := none }, level := 0 }

/-- One discovered link carrying a fragment, same origin as c8Parent. -/
def c8Links : List Link :=
  [{ raw := "http://h/s.css#top",
     parsed := some { scheme := some "http", host := some "h", port := none } }]

/-- The asset request admitted from c8Links. -/
def c8Asset : Req8 :=
  { uri := "http://h/s.css",
    u := { scheme := some "http", host := some "h", port := none }, level := 1 }

/-- The seven static name value pairs of submit_request, in order of the
    positions POS_METHOD through POS_USERAGENT. The path, scheme and host:port
    texts and the user agent product token (nghttp2/ followed by the version
    macro from an external header) are arguments. -/
def staticNv (isPost : Bool) (path scheme hostport ua : String) :
    List (String × String) :=
  [(":method", if isPost then "POST" else "GET"),
   (":path", path),
   (":scheme", scheme),
   (":host", hostport),
   ("accept", "*/*"),
   ("accept-encoding", "gzip, deflate"),
   ("user-agent", ua)]

/-- Overwrite of the value slot of the pair at index i, the write
    nv[2 i + 1] = value; no change when the index is out of range. -/
def setValueAt (nv : List (String × String)) (i : Nat) (v : String) :
    List (String × String) :=
  match nv[i]? with
  | none => nv
  | some p => nv.set i (p.1, v)

/-- Whether a user header name matches one of the three overridable defaults. -/
def specialName (k : String) : Bool :=
  strieq k "accept" || strieq k "user-agent" || strieq k "host"

/-- The pair index overwritten for a special user header: POS_ACCEPT,
    POS_USERAGENT or POS_HOST (the writes nv[9], nv[13] and nv[7]). -/
def overridePos (k : String) : Nat :=
  if strieq k "accept" then 4 else if strieq k "user-agent" then 6 else 3

/-- The name of the default header a special user header overrides; for host
    this is the :host pseudo header, the corresponding default of the header
    block. -/
def overrideName (k : String) : String :=
  if strieq k "accept" then "accept"
  else if strieq k "user-agent" then "user-agent"
  else ":host"

/-- Value left in an override slot by the repeated overwrites of the user
    header loop: the value of the LAST user header whose name matches the given
    default name case-insensitively, or the given default value when no user
    header matches. -/
def lastOvD (headers : List (String × String)) (name d : String) : String :=
  match headers.reverse.find? (fun p => strieq p.1 name) with
  | some p => p.2
  | none => d

/-- The base pair array with its three overridable value slots holding the
    given values: accept at pair 4, user-agent at pair 6, and the :host pseudo
    header at pair 3 (the value slots 9, 13 and 7 of the flat array). -/
def ovState (base : List (String × String)) (a u h : String) :
    List (String × String) :=
  setValueAt (setValueAt (setValueAt base 4 a) 6 u) 3 h

/-- One step of the user header loop of submit_request: a name equal to accept,
    user-agent or host (case-insensitively) overwrites the value slot of the
    corresponding default pair; any other pair is appended at the current
    position. -/
def headerStep (nv : List (String × String)) (kv : String × String) :
    List (String × String) :=
  if strieq kv.1 "accept" then setValueAt nv 4 kv.2
  else if strieq kv.1 "user-agent" then setValueAt nv 6 kv.2
  else if strieq kv.1 "host" then setValueAt nv 3 kv.2
  else nv ++ [kv]

/-- The pair array before the user header loop runs: the seven static pairs,
    followed by the content-length pair (decimal body length) exactly when an
    upload body is attached (data_prd present, which is also when the method is
    POST). -/
def baseNv (isPost : Bool) (dataLength : Int) (path scheme hostport ua : String) :
    List (String × String) :=
  staticNv isPost path scheme hostport ua ++
    (if isPost then [("content-length", toString dataLength)] else [])

/-- The name value pairs handed to nghttp2_submit_request, as pairs (the source
    lays them out flat, two slots per pair, with a terminating null). -/
def submitRequestNv (isPost : Bool) (dataLength : Int) (path scheme hostport ua : String)
    (headers : List (String × String)) : List (String × String) :=
  headers.foldl headerStep (baseNv isPost dataLength path scheme hostport ua)

/-- hardcoded_entry_count of submit_request: sizeof(static_nv)/sizeof(*static_nv),
    fourteen char pointers for the seven static pairs. -/
def hardcodedEntryCount : Nat := 14

/-- total_entry_count of submit_request: the static entries, two entries per
    user header, and ONE more entry when an upload body is present (the source
    increments the count once although content-length occupies a name slot and
    a value slot). -/
def totalEntryCount (headerCount : Nat) (hasData : Bool) : Nat :=
  hardcodedEntryCount + headerCount * 2 + (if hasData then 1 else 0)

/-- Slots allocated for the nv array: total_entry_count + 1. -/
def nvAllocSize (headerCount : Nat) (hasData : Bool) : Nat :=
  totalEntryCount headerCount hasData + 1

/-- Flat slot indices written by the user header loop of submit_request, with
    the final value of the running position pos: a special header overwrites
    slot 9, 13 or 7; any other header writes slots pos and pos+1 and advances
    pos by two. -/
def headerWriteIdx : Nat → List (String × String) → List Nat × Nat
  | pos, [] => ([], pos)
  | pos, kv :: rest =>
    if strieq kv.1 "accept" then
      let r := headerWriteIdx pos rest
      (9 :: r.1, r.2)
    else if strieq kv.1 "user-agent" then
      let r := headerWriteIdx pos rest
      (13 :: r.1, r.2)
    else if strieq kv.1 "host" then
      let r := headerWriteIdx pos rest
      (7 :: r.1, r.2)
    else
      let r := headerWriteIdx (pos + 2) rest
      (pos :: (pos + 1) :: r.1, r.2)

/-- All flat slot indices written into the nv array by submit_request, in write
    order: the memcpy of the fourteen static entries, the content-length name
    and value at pos 14 and 15 when a body is present, the user header writes,
    and the terminating null pointer at the final position. -/
def writeIndices (headers : List (String × String)) (hasData : Bool) : List Nat :=
  let stat := List.range hardcodedEntryCount
  let cl : List Nat := if hasData then [hardcodedEntryCount, hardcodedEntryCount + 1] else []
  let pos1 := if hasData then hardcodedEntryCount + 2 else hardcodedEntryCount
  let r := headerWriteIdx pos1 headers
  stat ++ cl ++ r.1 ++ [r.2]

end Nghttp

namespace Nghttp

/-- C2: with option -t 1 the code stores 1000 (milliseconds) in config.timeout and
    then installs a timeval whose seconds field is 1000, so the installed timeout
    lasts 1000 seconds of wall-clock time, not the 1 second the claim states. -/
theorem c2_timeout_code_bug :
    timeoutFromOpt 1 = 1000 ∧
    installedTimeout (timeoutFromOpt 1) = some { sec := 1000, usec := 0 } ∧
    (1000 : Int) ≠ 1 := by
  refine ⟨rfl, rfl, by decide⟩

/-- C6: the default high-water mark is 1 MiB; when the outgoing buffer holds more
    than the threshold, sendcb returns the would-block sentinel and appends
    nothing; otherwise it returns the callback-failure sentinel when the append
    fails, and appends the bytes and returns their count when it succeeds. -/
theorem c6_sendcb_would_block (thres : Nat) (output data : List Nat) (addFails : Bool) :
    Config.construct.output_upper_thres = 1048576 ∧
    (sendcb thres output data addFails).2 =
      (if output.length > thres then NGHTTP2_ERR_WOULDBLOCK
       else if addFails then NGHTTP2_ERR_CALLBACK_FAILURE
       else (data.length : Int)) ∧
    (sendcb thres output data addFails).1 =
      (if output.length > thres ∨ addFails = true then output else output ++ data) := by
  refine ⟨rfl, ?_, ?_⟩ <;>
    by_cases h1 : output.length > thres <;>
      by_cases h2 : addFails <;>
        simp [sendcb, h1, h2]

/-- C1: for the input list [http://h, http://h] the code makes two communicate
    calls (two sessions), because the comparison u.port != prev_port compares the
    raw port member (0 when absent) against the stored effective port (80): the
    code computes the effective port into a local variable precisely for this
    comparison and then does not use it. The specified grouping by host and
    effective port puts both uris into a single session. -/
theorem c1_session_grouping_code_bug :
    runSessions [c1Item, c1Item] =
      [{ host := "h", port := 80, uris := ["http://h"] },
       { host := "h", port := 80, uris := ["http://h"] }] ∧
    specSessions [c1Item, c1Item] =
      [{ host := "h", port := 80, uris := ["http://h", "http://h"] }] := by
  constructor <;> rfl

/-- The gzip flag computed by the scan equals the decision of the last
    content-encoding header of the block, for any starting accumulator. -/
theorem scanHeadersAux_fst (nva : List (String × String)) (st : Bool × Option String) :
    (nva.foldl
      (fun st nv =>
        if strieq nv.1 "content-encoding" then (gzipValue nv.2, st.2)
        else if strieq nv.1 ":status" then (st.1, some nv.2)
        else st)
      st).1 =
      (match nva.reverse.find? (fun nv => strieq nv.1 "content-encoding") with
       | some nv => gzipValue nv.2
       | none => st.1) := by
  induction nva generalizing st with
  | nil => rfl
  | cons x xs ih =>
    rw [List.foldl_cons, ih, List.reverse_cons, List.find?_append]
    cases h : xs.reverse.find? (fun nv => strieq nv.1 "content-encoding") with
    | some nv => rfl
    | none =>
      cases hx : strieq x.1 "content-encoding" with
      | true => simp [List.find?, hx]
      | false =>
        cases hs : strieq x.1 ":status" <;> simp [List.find?, hx, hs]

/-- C3 counterexample: on a block whose first content-encoding header is gzip but
    whose last is identity, the code leaves the decoder uninitialized, while the
    first-occurrence rule of the claim would initialize it; on the block with
    gzip alone the decoder is initialized. The later header did change the
    outcome, refuting the claim as stated. -/
theorem c3_first_occurrence_counterexample :
    decoderAfter false [("content-encoding", "gzip")] = true ∧
    decoderAfter false c3Block = false ∧
    firstCEGzip c3Block = true := by
  refine ⟨rfl, rfl, rfl⟩

/-- C3 amended: the decoder decision is taken by the LAST content-encoding header
    of the reply block: the request ends up with a decoder iff it already had one
    or the last content-encoding header carries gzip or deflate. -/
theorem c3_decoder_last_occurrence (inflater0 : Bool) (nva : List (String × String)) :
    decoderAfter inflater0 nva = (inflater0 || lastCEGzip nva) := by
  unfold decoderAfter lastCEGzip scanHeaders
  rw [scanHeadersAux_fst]

/-- add_request leaves the path cache unchanged when config.multiply is not 1. -/
theorem add_request_cache_stable (m : Int) (c : Client7) (uri : String) (level : Int)
    (hm : m ≠ 1) : ((add_request m c uri level).2).path_cache = c.path_cache := by
  unfold add_request
  by_cases h : uri ∈ c.path_cache <;> simp [h, hm]

/-- With config.multiply different from 1, k admissions of one uri leave the path
    cache unchanged and append k copies of the request. -/
theorem addLoop_spec (m : Int) (c : Client7) (uri : String) (level : Int) (k : Nat)
    (hm : m ≠ 1) (hu : uri ∉ c.path_cache) :
    (addLoop m c uri level k).path_cache = c.path_cache ∧
    (addLoop m c uri level k).reqvec = c.reqvec ++ List.replicate k (uri, level) := by
  induction k with
  | zero => simp [addLoop]
  | succ k ih =>
    obtain ⟨h1, h2⟩ := ih
    have hmem : uri ∉ (addLoop m c uri level k).path_cache := h1 ▸ hu
    constructor
    · rw [addLoop, add_request_cache_stable m _ uri level hm, h1]
    · simp [addLoop, add_request, hmem, h2, List.replicate_succ']

/-- C7: with multiplicity 1, admitting one uri twice yields exactly one request
    (the second call returns false and changes nothing); with multiplicity m not
    equal to 1 (the multiply option disables de-duplication), k admissions of the
    same uri append k requests. -/
theorem c7_dedup_and_multiplicity (c : Client7) (uri : String) (level : Int) (m : Int)
    (k : Nat) (hu : uri ∉ c.path_cache) (hm : m ≠ 1) (_hk : 1 < k) :
    (add_request 1 c uri level).1 = true ∧
    (add_request 1 (add_request 1 c uri level).2 uri level).1 = false ∧
    (add_request 1 (add_request 1 c uri level).2 uri level).2 =
      (add_request 1 c uri level).2 ∧
    (add_request 1 c uri level).2.reqvec = c.reqvec ++ [(uri, level)] ∧
    (addLoop m c uri level k).reqvec = c.reqvec ++ List.replicate k (uri, level) := by
  have h1 : add_request 1 c uri level =
      (true, { reqvec := c.reqvec ++ [(uri, level)], path_cache := uri :: c.path_cache }) := by
    simp [add_request, hu]
  refine ⟨by rw [h1], ?_, ?_, by rw [h1], (addLoop_spec m c uri level k hm hu).2⟩
  · rw [h1]; simp [add_request]
  · rw [h1]; simp [add_request]

/-- C7 witness: concrete instance with an empty client, multiplicity 3 and three
    admissions of one uri. -/
theorem c7_dedup_and_multiplicity_witness :
    (add_request 1 { reqvec := [], path_cache := [] } "https://h/a" 0).1 = true ∧
    (add_request 1 (add_request 1 { reqvec := [], path_cache := [] } "https://h/a" 0).2
      "https://h/a" 0).1 = false ∧
    (add_request 1 (add_request 1 { reqvec := [], path_cache := [] } "https://h/a" 0).2
      "https://h/a" 0).2 =
      (add_request 1 { reqvec := [], path_cache := [] } "https://h/a" 0).2 ∧
    (add_request 1 { reqvec := [], path_cache := [] } "https://h/a" 0).2.reqvec =
      [] ++ [("https://h/a", 0)] ∧
    (addLoop 3 { reqvec := [], path_cache := [] } "https://h/a" 0 3).reqvec =
      [] ++ List.replicate 3 ("https://h/a", 0) :=
  c7_dedup_and_multiplicity { reqvec := [], path_cache := [] } "https://h/a" 0 3 3
    (by simp) (by decide) (by decide)

/-- C4: stream 2 has no bound request on c4Client. The data chunk callback and
    the stream close callback tolerate the event silently (state unchanged, so
    the complete counter is untouched and no GOAWAY is submitted), but
    on_frame_recv_callback2 runs assert(req) for a reply HEADERS frame on that
    stream and the assertion fails, aborting the process; this contradicts the
    claim, and the comment in check_response_header that acknowledges
    server-pushed streams carry no stream user data. -/
theorem c4_unbound_stream_assertion :
    on_data_chunk_recv4 false [] c4Client 2 [7, 8] = c4Client ∧
    on_stream_close4 c4Client 2 = c4Client ∧
    (on_stream_close4 c4Client 2).complete = c4Client.complete ∧
    on_frame_recv_callback2 false true c4Client 2 [(":status", "200")] =
      Except.error "assertion req failed in on_frame_recv_callback2" := by
  refine ⟨rfl, rfl, rfl, rfl⟩

/-- One stream-close event preserves the session invariant. -/
theorem closeStep_inv (s : Sess5) (ev : Nat × Nat) (h : sessInv s) :
    sessInv (closeStep s ev) := by
  obtain ⟨h1, h2⟩ := h
  unfold closeStep
  by_cases hm : ev.1 ∈ s.pendingIds
  · rw [if_pos hm]
    have hne : s.pendingIds ≠ [] := by
      intro he
      rw [he] at hm
      cases hm
    have hpos : 1 ≤ s.pendingIds.length := by
      cases hp : s.pendingIds with
      | nil => exact absurd hp hne
      | cons a l => simp
    have hlen : (s.pendingIds.erase ev.1).length = s.pendingIds.length - 1 :=
      List.length_erase_of_mem hm
    have hG : s.goaways = [] := by rw [h2, if_neg hne]
    have hlenF : ((List.range ev.2).map (fun j => s.nextId + j)).length = ev.2 := by
      simp
    constructor
    · simp only [List.length_append, hlen, hlenF]
      omega
    · have hiff : (s.complete + 1 = s.total + ev.2) ↔
          ((s.pendingIds.erase ev.1) ++
            (List.range ev.2).map (fun j => s.nextId + j) = []) := by
        rw [← List.length_eq_zero, List.length_append, hlen, hlenF]
        omega
      rw [hG]
      dsimp only
      by_cases hc : s.complete + 1 = s.total + ev.2
      · rw [if_pos hc, if_pos (hiff.mp hc)]
        rfl
      · rw [if_neg hc, if_neg (fun hh => hc (hiff.mpr hh))]
  · rw [if_neg hm]
    exact ⟨h1, h2⟩

/-- Any sequence of stream-close events preserves the session invariant. -/
theorem runCloses_inv (evs : List (Nat × Nat)) (s : Sess5) (h : sessInv s) :
    sessInv (runCloses s evs) := by
  induction evs generalizing s with
  | nil => exact h
  | cons e es ih => exact ih (closeStep s e) (closeStep_inv s e h)

/-- C5: in a session starting with n submitted requests (n at least 1), after any
    sequence of stream-close events, possibly admitting asset requests along the
    way: all_done (complete equal to the request count) holds iff no stream is
    open, and exactly one GOAWAY with error code NGHTTP2_NO_ERROR has been
    submitted when all_done holds, none otherwise; in particular at most one
    GOAWAY is ever submitted and never while some stream is open. -/
theorem c5_goaway_exactly_once (n : Nat) (hn : 1 ≤ n) (evs : List (Nat × Nat)) :
    ((runCloses (initSess n) evs).complete = (runCloses (initSess n) evs).total ↔
      (runCloses (initSess n) evs).pendingIds = []) ∧
    (runCloses (initSess n) evs).goaways =
      (if (runCloses (initSess n) evs).complete = (runCloses (initSess n) evs).total
       then [NGHTTP2_NO_ERROR] else []) ∧
    (runCloses (initSess n) evs).goaways.length ≤ 1 := by
  have hinit : sessInv (initSess n) := by
    constructor
    · simp [initSess]
    · have hne : List.range n ≠ [] := by
        rw [ne_eq, List.range_eq_nil]
        omega
      simp [initSess, hne]
  have hinv := runCloses_inv evs (initSess n) hinit
  obtain ⟨h1, h2⟩ := hinv
  have hiff : (runCloses (initSess n) evs).complete = (runCloses (initSess n) evs).total ↔
      (runCloses (initSess n) evs).pendingIds = [] := by
    rw [← List.length_eq_zero]
    omega
  refine ⟨hiff, ?_, ?_⟩
  · rw [h2]
    by_cases hc : (runCloses (initSess n) evs).pendingIds = []
    · rw [if_pos hc, if_pos (hiff.mpr hc)]
    · rw [if_neg hc, if_neg (fun hh => hc (hiff.mp hh))]
  · rw [h2]
    by_cases hc : (runCloses (initSess n) evs).pendingIds = []
    · rw [if_pos hc]
      simp
    · rw [if_neg hc]
      simp

/-- C5 witness: one request, whose stream closes without discovering assets. -/
theorem c5_goaway_exactly_once_witness :
    ((runCloses (initSess 1) [(0, 0)]).complete = (runCloses (initSess 1) [(0, 0)]).total ↔
      (runCloses (initSess 1) [(0, 0)]).pendingIds = []) ∧
    (runCloses (initSess 1) [(0, 0)]).goaways =
      (if (runCloses (initSess 1) [(0, 0)]).complete = (runCloses (initSess 1) [(0, 0)]).total
       then [NGHTTP2_NO_ERROR] else []) ∧
    (runCloses (initSess 1) [(0, 0)]).goaways.length ≤ 1 :=
  c5_goaway_exactly_once 1 (by decide) [(0, 0)]

/-- fieldeq2 decides equality of two optional uri fields. -/
theorem fieldeq2_eq_true (a b : Option String) : fieldeq2 a b = true ↔ a = b := by
  cases a <;> cases b <;> simp [fieldeq2]

/-- porteq decides equality of the effective ports. -/
theorem porteq_eq_true (u1 u2 : ParsedUrl) :
    porteq u1 u2 = true ↔ effectivePort u1 = effectivePort u2 := by
  simp [porteq]

/-- The output of strip_fragment never contains the # character. -/
theorem strip_fragment_no_hash (s : String) : '#' ∉ (strip_fragment s).data := by
  intro h
  simp only [strip_fragment] at h
  have h2 := List.mem_takeWhile_imp h
  simp at h2

/-- One link step only adds a request that passed the same-origin filter, at the
    parent level plus one, with a fragment-free uri. -/
theorem linkStep_mem (multiply : Int) (parent : Req8) (c : Client8) (l : Link) (r : Req8)
    (hr : r ∈ (linkStep multiply parent c l).reqvec) :
    r ∈ c.reqvec ∨
      (r.u.scheme = parent.u.scheme ∧ r.u.host = parent.u.host ∧
       effectivePort r.u = effectivePort parent.u ∧ r.level = parent.level + 1 ∧
       '#' ∉ r.uri.data) := by
  unfold linkStep at hr
  cases hp : l.parsed with
  | none =>
    rw [hp] at hr
    exact Or.inl hr
  | some u =>
    rw [hp] at hr
    dsimp only at hr
    by_cases hc : (fieldeq2 u.scheme parent.u.scheme && fieldeq2 u.host parent.u.host &&
        porteq u parent.u) = true
    · rw [if_pos hc] at hr
      unfold add_request8 at hr
      by_cases hmem : strip_fragment l.raw ∈ c.path_cache
      · rw [if_pos hmem] at hr
        exact Or.inl hr
      · rw [if_neg hmem] at hr
        dsimp only at hr
        rcases List.mem_append.mp hr with h | h
        · exact Or.inl h
        · have heq := List.mem_singleton.mp h
          subst heq
          simp only [Bool.and_eq_true] at hc
          obtain ⟨⟨hs, hh⟩, hpo⟩ := hc
          exact Or.inr ⟨(fieldeq2_eq_true _ _).mp hs, (fieldeq2_eq_true _ _).mp hh,
            (porteq_eq_true _ _).mp hpo, rfl, strip_fragment_no_hash l.raw⟩
    · rw [if_neg hc] at hr
      exact Or.inl hr

/-- C8: every request present after asset admission either was already present
    or is a newly admitted asset whose scheme, host and effective port equal
    those of the parent, whose level is the parent level plus one, and whose
    stored uri contains no # character; in particular a link that fails the
    same-origin filter is never admitted. -/
theorem c8_same_origin_assets (multiply : Int) (parent : Req8) (c : Client8)
    (links : List Link) (r : Req8)
    (hr : r ∈ (processLinks multiply parent c links).reqvec) :
    r ∈ c.reqvec ∨
      (r.u.scheme = parent.u.scheme ∧ r.u.host = parent.u.host ∧
       effectivePort r.u = effectivePort parent.u ∧ r.level = parent.level + 1 ∧
       '#' ∉ r.uri.data) := by
  induction links generalizing c with
  | nil => exact Or.inl hr
  | cons l ls ih =>
    have hr2 : r ∈ (processLinks multiply parent (linkStep multiply parent c l) ls).reqvec := hr
    rcases ih (linkStep multiply parent c l) hr2 with h | h
    · exact linkStep_mem multiply parent c l r h
    · exact Or.inr h

/-- C8 witness: one same-origin link with a fragment admitted from an empty
    client under the parent c8Parent. -/
theorem c8_same_origin_assets_witness :
    c8Asset ∈ (Client8.mk [] []).reqvec ∨
      (c8Asset.u.scheme = c8Parent.u.scheme ∧ c8Asset.u.host = c8Parent.u.host ∧
       effectivePort c8Asset.u = effectivePort c8Parent.u ∧
       c8Asset.level = c8Parent.level + 1 ∧ '#' ∉ c8Asset.uri.data) :=
  c8_same_origin_assets 1 c8Parent (Client8.mk [] []) c8Links c8Asset (by decide)

/-- A header whose name is not special is appended by the loop step. -/
theorem headerStep_nonspecial (nv : List (String × String)) (kv : String × String)
    (h : specialName kv.1 = false) : headerStep nv kv = nv ++ [kv] := by
  unfold specialName at h
  simp only [Bool.or_eq_false_iff] at h
  obtain ⟨⟨h1, h2⟩, h3⟩ := h
  simp [headerStep, h1, h2, h3]

/-- A value overwrite inside the first block of an appended pair list. -/
theorem setValueAt_append (a b : List (String × String)) (i : Nat) (v : String)
    (h : i < a.length) : setValueAt (a ++ b) i v = setValueAt a i v ++ b := by
  unfold setValueAt
  rw [List.getElem?_append_left h]
  cases hg : a[i]? with
  | none => rfl
  | some p =>
    show (a ++ b).set i (p.1, v) = a.set i (p.1, v) ++ b
    exact List.set_append_left i (p.1, v) h

/-- Unfolding of setValueAt at an occupied slot. -/
theorem setValueAt_eq_of_getElem (nv : List (String × String)) (i : Nat) (v : String)
    (p : String × String) (h : nv[i]? = some p) :
    setValueAt nv i v = nv.set i (p.1, v) := by
  unfold setValueAt
  rw [h]

/-- Unfolding of setValueAt at an absent slot. -/
theorem setValueAt_eq_of_none (nv : List (String × String)) (i : Nat) (v : String)
    (h : nv[i]? = none) : setValueAt nv i v = nv := by
  unfold setValueAt
  rw [h]

/-- Overwriting the same value slot twice keeps only the second value. -/
theorem setValueAt_collapse (nv : List (String × String)) (i : Nat) (v w : String) :
    setValueAt (setValueAt nv i v) i w = setValueAt nv i w := by
  cases hi : nv[i]? with
  | none => rw [setValueAt_eq_of_none nv i v hi]
  | some p =>
    have hlt : i < nv.length := by
      rcases List.getElem?_eq_some_iff.mp hi with ⟨hl, _⟩
      exact hl
    have h3 : (nv.set i (p.1, v))[i]? = some (p.1, v) := List.getElem?_set_self hlt
    rw [setValueAt_eq_of_getElem nv i v p hi, setValueAt_eq_of_getElem nv i w p hi,
      setValueAt_eq_of_getElem _ i w (p.1, v) h3]
    exact List.set_set (p.1, v) (p.1, w) nv i

/-- Overwrites of two distinct value slots commute. -/
theorem setValueAt_comm (nv : List (String × String)) (i j : Nat) (v w : String)
    (hij : i ≠ j) :
    setValueAt (setValueAt nv i v) j w = setValueAt (setValueAt nv j w) i v := by
  cases hi : nv[i]? with
  | none =>
    rw [setValueAt_eq_of_none nv i v hi]
    cases hj : nv[j]? with
    | none => rw [setValueAt_eq_of_none nv j w hj, setValueAt_eq_of_none nv i v hi]
    | some q =>
      rw [setValueAt_eq_of_getElem nv j w q hj]
      have hi2 : (nv.set j (q.1, w))[i]? = none := by
        rw [List.getElem?_set_ne (Ne.symm hij), hi]
      rw [setValueAt_eq_of_none _ i v hi2]
  | some p =>
    rw [setValueAt_eq_of_getElem nv i v p hi]
    cases hj : nv[j]? with
    | none =>
      have hj2 : (nv.set i (p.1, v))[j]? = none := by
        rw [List.getElem?_set_ne hij, hj]
      rw [setValueAt_eq_of_none _ j w hj2, setValueAt_eq_of_none nv j w hj,
        setValueAt_eq_of_getElem nv i v p hi]
    | some q =>
      have hj2 : (nv.set i (p.1, v))[j]? = some q := by
        rw [List.getElem?_set_ne hij, hj]
      have hi2 : (nv.set j (q.1, w))[i]? = some p := by
        rw [List.getElem?_set_ne (Ne.symm hij), hi]
      rw [setValueAt_eq_of_getElem _ j w q hj2, setValueAt_eq_of_getElem nv j w q hj,
        setValueAt_eq_of_getElem _ i v p hi2]
      exact List.set_comm (p.1, v) (q.1, w) nv hij

/-- A value overwrite does not change the length of the pair array. -/
theorem setValueAt_length (nv : List (String × String)) (i : Nat) (v : String) :
    (setValueAt nv i v).length = nv.length := by
  cases hi : nv[i]? with
  | none => rw [setValueAt_eq_of_none nv i v hi]
  | some p => rw [setValueAt_eq_of_getElem nv i v p hi, List.length_set]

/-- Setting a slot to the element it already holds changes nothing. -/
theorem set_of_getElem?_eq {α : Type} (l : List α) (i : Nat) (a : α)
    (h : l[i]? = some a) : l.set i a = l := by
  induction l generalizing i with
  | nil => rfl
  | cons y ys ih =>
    cases i with
    | zero =>
      simp only [List.getElem?_cons_zero, Option.some.injEq] at h
      rw [List.set_cons_zero, h]
    | succ n =>
      simp only [List.getElem?_cons_succ] at h
      rw [List.set_cons_succ, ih n h]

/-- A value overwrite keeps every header name in place: no default is removed. -/
theorem setValueAt_map_fst (nv : List (String × String)) (i : Nat) (v : String) :
    (setValueAt nv i v).map Prod.fst = nv.map Prod.fst := by
  cases hi : nv[i]? with
  | none => rw [setValueAt_eq_of_none nv i v hi]
  | some p =>
    rw [setValueAt_eq_of_getElem nv i v p hi, List.map_set]
    have h2 : (nv.map Prod.fst)[i]? = some p.1 := by
      rw [List.getElem?_map, hi]
      rfl
    exact set_of_getElem?_eq (nv.map Prod.fst) i p.1 h2

/-- The override state keeps the length of the base block. -/
theorem ovState_length (b : List (String × String)) (a u h : String) :
    (ovState b a u h).length = b.length := by
  unfold ovState
  rw [setValueAt_length, setValueAt_length, setValueAt_length]

/-- Overwriting the host slot of an override state updates its host value. -/
theorem ovState_set3 (b : List (String × String)) (a u h v : String) :
    setValueAt (ovState b a u h) 3 v = ovState b a u v := by
  unfold ovState
  rw [setValueAt_collapse]

/-- Overwriting the user-agent slot of an override state updates its value. -/
theorem ovState_set6 (b : List (String × String)) (a u h v : String) :
    setValueAt (ovState b a u h) 6 v = ovState b a v h := by
  unfold ovState
  rw [setValueAt_comm (setValueAt (setValueAt b 4 a) 6 u) 3 6 h v (by decide),
    setValueAt_collapse (setValueAt b 4 a) 6 u v]

/-- Overwriting the accept slot of an override state updates its value. -/
theorem ovState_set4 (b : List (String × String)) (a u h v : String) :
    setValueAt (ovState b a u h) 4 v = ovState b v u h := by
  unfold ovState
  rw [setValueAt_comm (setValueAt (setValueAt b 4 a) 6 u) 3 4 h v (by decide),
    setValueAt_comm (setValueAt b 4 a) 6 4 u v (by decide),
    setValueAt_collapse b 4 a v]

/-- Case-insensitive matching against a name is determined by the lowercase
    form of that name. -/
theorem strieq_congr (k n : String) (h : strieq k n = true) (a : String) :
    strieq a k = strieq a n := by
  simp only [strieq, beq_iff_eq] at h ⊢
  rw [h]

/-- A name cannot case-insensitively match two default names with different
    lowercase forms. -/
theorem strieq_not_both (a n m : String)
    (hnm : n.data.map asciiLower ≠ m.data.map asciiLower)
    (h1 : strieq a n = true) : strieq a m = false := by
  cases h2 : strieq a m
  · rfl
  · exfalso
    simp only [strieq, beq_iff_eq] at h1 h2
    exact hnm (by rw [← h1, h2])

/-- find? returns the unique element of the list satisfying the test. -/
theorem find?_eq_of_unique {α : Type} (l : List α) (P : α → Bool) (x : α)
    (hmem : x ∈ l) (hx : P x = true)
    (huniq : ∀ p ∈ l, P p = true → p = x) : l.find? P = some x := by
  induction l with
  | nil => cases hmem
  | cons y ys ih =>
    cases hy : P y with
    | true =>
      rw [List.find?_cons_of_pos ys hy, huniq y (List.mem_cons_self y ys) hy]
    | false =>
      rw [List.find?_cons_of_neg ys (by simp [hy])]
      rcases List.mem_cons.mp hmem with h | h
      · subst h
        rw [hx] at hy
        cases hy
      · exact ih h (fun p hp hP => huniq p (List.mem_cons_of_mem y hp) hP)

/-- The override value after one more user header that matches the slot. -/
theorem lastOvD_cons_match (x : String × String) (xs : List (String × String))
    (name d : String) (hx : strieq x.1 name = true) :
    lastOvD (x :: xs) name d = lastOvD xs name x.2 := by
  unfold lastOvD
  rw [List.reverse_cons, List.find?_append]
  cases hf : xs.reverse.find? (fun p => strieq p.1 name) with
  | some q => rfl
  | none =>
    rw [List.find?_cons_of_pos ([] : List (String × String)) hx]
    rfl

/-- The override value after one more user header that does not match. -/
theorem lastOvD_cons_nomatch (x : String × String) (xs : List (String × String))
    (name d : String) (hx : strieq x.1 name = false) :
    lastOvD (x :: xs) name d = lastOvD xs name d := by
  unfold lastOvD
  rw [List.reverse_cons, List.find?_append]
  cases hf : xs.reverse.find? (fun p => strieq p.1 name) with
  | some q => rfl
  | none =>
    rw [List.find?_cons_of_neg ([] : List (String × String)) (by simp [hx])]
    rfl

/-- Characterization of the whole user header loop: started on the base block
    whose three override slots hold a, u, h with a tail A appended behind it,
    the loop yields the base block whose override slots hold the values of the
    LAST matching user headers, with every nonspecial header appended behind A
    in order. No restriction is placed on how many special headers occur. -/
theorem foldl_headerStep_char (headers : List (String × String)) :
    ∀ (b A : List (String × String)) (a u h : String), 7 ≤ b.length →
    headers.foldl headerStep (ovState b a u h ++ A) =
      ovState b (lastOvD headers "accept" a) (lastOvD headers "user-agent" u)
        (lastOvD headers "host" h) ++
        (A ++ headers.filter (fun p => !specialName p.1)) := by
  induction headers with
  | nil =>
    intro b A a u h hb
    simp [lastOvD]
  | cons x xs ih =>
    intro b A a u h hb
    rw [List.foldl_cons]
    have hlen : (ovState b a u h).length = b.length := ovState_length b a u h
    by_cases h1 : strieq x.1 "accept" = true
    · have hstep : headerStep (ovState b a u h ++ A) x = ovState b x.2 u h ++ A := by
        unfold headerStep
        rw [if_pos h1, setValueAt_append (ovState b a u h) A 4 x.2 (by omega), ovState_set4]
      have h2 : strieq x.1 "user-agent" = false :=
        strieq_not_both x.1 "accept" "user-agent" (by decide) h1
      have h3 : strieq x.1 "host" = false :=
        strieq_not_both x.1 "accept" "host" (by decide) h1
      have hsp : specialName x.1 = true := by simp [specialName, h1]
      rw [hstep, ih b A x.2 u h hb, lastOvD_cons_match x xs "accept" a h1,
        lastOvD_cons_nomatch x xs "user-agent" u h2, lastOvD_cons_nomatch x xs "host" h h3,
        List.filter_cons]
      simp [hsp]
    · have h1f : strieq x.1 "accept" = false := by simpa using h1
      by_cases h2 : strieq x.1 "user-agent" = true
      · have hstep : headerStep (ovState b a u h ++ A) x = ovState b a x.2 h ++ A := by
          unfold headerStep
          rw [if_neg (by simp [h1f]), if_pos h2,
            setValueAt_append (ovState b a u h) A 6 x.2 (by omega), ovState_set6]
        have h3 : strieq x.1 "host" = false :=
          strieq_not_both x.1 "user-agent" "host" (by decide) h2
        have hsp : specialName x.1 = true := by simp [specialName, h2]
        rw [hstep, ih b A a x.2 h hb, lastOvD_cons_nomatch x xs "accept" a h1f,
          lastOvD_cons_match x xs "user-agent" u h2, lastOvD_cons_nomatch x xs "host" h h3,
          List.filter_cons]
        simp [hsp]
      · have h2f : strieq x.1 "user-agent" = false := by simpa using h2
        by_cases h3 : strieq x.1 "host" = true
        · have hstep : headerStep (ovState b a u h ++ A) x = ovState b a u x.2 ++ A := by
            unfold headerStep
            rw [if_neg (by simp [h1f]), if_neg (by simp [h2f]), if_pos h3,
              setValueAt_append (ovState b a u h) A 3 x.2 (by omega), ovState_set3]
          have hsp : specialName x.1 = true := by simp [specialName, h3]
          rw [hstep, ih b A a u x.2 hb, lastOvD_cons_nomatch x xs "accept" a h1f,
            lastOvD_cons_nomatch x xs "user-agent" u h2f,
            lastOvD_cons_match x xs "host" h h3, List.filter_cons]
          simp [hsp]
        · have h3f : strieq x.1 "host" = false := by simpa using h3
          have hsp : specialName x.1 = false := by simp [specialName, h1f, h2f, h3f]
          have hstep : headerStep (ovState b a u h ++ A) x =
              ovState b a u h ++ (A ++ [x]) := by
            rw [headerStep_nonspecial (ovState b a u h ++ A) x hsp, List.append_assoc]
          rw [hstep, ih b (A ++ [x]) a u h hb, lastOvD_cons_nomatch x xs "accept" a h1f,
            lastOvD_cons_nomatch x xs "user-agent" u h2f,
            lastOvD_cons_nomatch x xs "host" h h3f, List.filter_cons]
          simp [hsp]

/-- C9: for every submitted request and every user header list whose names do
    not start with a colon (guaranteed by the -H parser, which rejects an empty
    name before the terminating colon): the emitted block is the default block
    with each overridable value slot holding the value of the last user header
    whose name matches it case-insensitively, followed by every non-special
    user header in its order, and every default name stays in place, so no
    default is removed. Moreover, for any user header (k, v) that is the only
    one matching its default name - any number of OTHER defaults may be
    overridden in the same request - the block contains exactly one header with
    the overridden name and it carries v. For accept and user-agent that name
    is the name itself; for host it is the :host pseudo header, the
    corresponding default of the block. -/
theorem c9_header_override (isPost : Bool) (dataLength : Int)
    (path scheme hostport ua : String) (headers : List (String × String)) (k v : String)
    (hcolon : ∀ p ∈ headers, ':' ∉ p.1.data)
    (hk : specialName k = true)
    (hmem : (k, v) ∈ headers)
    (huniq : ∀ p ∈ headers, strieq p.1 k = true → p = (k, v)) :
    submitRequestNv isPost dataLength path scheme hostport ua headers =
      ovState (baseNv isPost dataLength path scheme hostport ua)
        (lastOvD headers "accept" "*/*") (lastOvD headers "user-agent" ua)
        (lastOvD headers "host" hostport) ++
        headers.filter (fun p => !specialName p.1) ∧
    (ovState (baseNv isPost dataLength path scheme hostport ua)
        (lastOvD headers "accept" "*/*") (lastOvD headers "user-agent" ua)
        (lastOvD headers "host" hostport)).map Prod.fst =
      (baseNv isPost dataLength path scheme hostport ua).map Prod.fst ∧
    (submitRequestNv isPost dataLength path scheme hostport ua headers).filter
        (fun p => p.1 == overrideName k) = [(overrideName k, v)] := by
  have hbase7 : 7 ≤ (baseNv isPost dataLength path scheme hostport ua).length := by
    cases isPost <;> simp [baseNv, staticNv]
  have hbase_ov : baseNv isPost dataLength path scheme hostport ua =
      ovState (baseNv isPost dataLength path scheme hostport ua) "*/*" ua hostport := by
    cases isPost <;> rfl
  have hchar : submitRequestNv isPost dataLength path scheme hostport ua headers =
      ovState (baseNv isPost dataLength path scheme hostport ua)
        (lastOvD headers "accept" "*/*") (lastOvD headers "user-agent" ua)
        (lastOvD headers "host" hostport) ++
        headers.filter (fun p => !specialName p.1) := by
    unfold submitRequestNv
    conv_lhs =>
      rw [hbase_ov,
        (List.append_nil (ovState (baseNv isPost dataLength path scheme hostport ua)
          "*/*" ua hostport)).symm]
    rw [foldl_headerStep_char headers (baseNv isPost dataLength path scheme hostport ua)
        [] "*/*" ua hostport hbase7, List.nil_append]
  refine ⟨hchar, ?_, ?_⟩
  · unfold ovState
    rw [setValueAt_map_fst, setValueAt_map_fst, setValueAt_map_fst]
  · rw [hchar, List.filter_append]
    have hfilterA : (headers.filter (fun p => !specialName p.1)).filter
        (fun p => p.1 == overrideName k) = [] := by
      rw [List.filter_eq_nil_iff]
      intro p hp hbeq
      have hpin := List.mem_filter.mp hp
      have hsp : specialName p.1 = false := by simpa using hpin.2
      have hco := hcolon p hpin.1
      have hname : p.1 = overrideName k := by simpa using hbeq
      unfold overrideName at hname
      by_cases ha : strieq k "accept" = true
      · rw [if_pos ha] at hname
        rw [hname] at hsp
        exact absurd hsp (by decide)
      · by_cases hu2 : strieq k "user-agent" = true
        · rw [if_neg ha, if_pos hu2] at hname
          rw [hname] at hsp
          exact absurd hsp (by decide)
        · rw [if_neg ha, if_neg hu2] at hname
          exact hco (hname ▸ (by decide : ':' ∈ ":host".data))
    rw [hfilterA, List.append_nil]
    by_cases ha : strieq k "accept" = true
    · have hnm : overrideName k = "accept" := by simp [overrideName, ha]
      have hval : lastOvD headers "accept" "*/*" = v := by
        unfold lastOvD
        rw [find?_eq_of_unique headers.reverse (fun p => strieq p.1 "accept") (k, v)
          (List.mem_reverse.mpr hmem) ha
          (fun p hp hP => huniq p (List.mem_reverse.mp hp)
            ((strieq_congr k "accept" ha p.1).trans hP))]
      rw [hnm, hval]
      cases isPost <;> rfl
    · by_cases hu2 : strieq k "user-agent" = true
      · have hnm : overrideName k = "user-agent" := by simp [overrideName, ha, hu2]
        have hval : lastOvD headers "user-agent" ua = v := by
          unfold lastOvD
          rw [find?_eq_of_unique headers.reverse (fun p => strieq p.1 "user-agent") (k, v)
            (List.mem_reverse.mpr hmem) hu2
            (fun p hp hP => huniq p (List.mem_reverse.mp hp)
              ((strieq_congr k "user-agent" hu2 p.1).trans hP))]
        rw [hnm, hval]
        cases isPost <;> rfl
      · have hho : strieq k "host" = true := by
          have := hk
          unfold specialName at this
          simp [ha, hu2] at this
          exact this
        have hnm : overrideName k = ":host" := by simp [overrideName, ha, hu2]
        have hval : lastOvD headers "host" hostport = v := by
          unfold lastOvD
          rw [find?_eq_of_unique headers.reverse (fun p => strieq p.1 "host") (k, v)
            (List.mem_reverse.mpr hmem) hho
            (fun p hp hP => huniq p (List.mem_reverse.mp hp)
              ((strieq_congr k "host" hho p.1).trans hP))]
        rw [hnm, hval]
        cases isPost <;> rfl

/-- C9 witness: two special user headers in one request, Host: x and
    User-Agent: probe, instantiated for the User-Agent override. -/
theorem c9_header_override_witness :
    submitRequestNv false 0 "/" "https" "example.test" "nghttp2/0.1.0"
        [("Host", "x"), ("User-Agent", "probe")] =
      ovState (baseNv false 0 "/" "https" "example.test" "nghttp2/0.1.0")
        (lastOvD [("Host", "x"), ("User-Agent", "probe")] "accept" "*/*")
        (lastOvD [("Host", "x"), ("User-Agent", "probe")] "user-agent" "nghttp2/0.1.0")
        (lastOvD [("Host", "x"), ("User-Agent", "probe")] "host" "example.test") ++
        [("Host", "x"), ("User-Agent", "probe")].filter (fun p => !specialName p.1) ∧
    (ovState (baseNv false 0 "/" "https" "example.test" "nghttp2/0.1.0")
        (lastOvD [("Host", "x"), ("User-Agent", "probe")] "accept" "*/*")
        (lastOvD [("Host", "x"), ("User-Agent", "probe")] "user-agent" "nghttp2/0.1.0")
        (lastOvD [("Host", "x"), ("User-Agent", "probe")] "host" "example.test")).map
        Prod.fst =
      (baseNv false 0 "/" "https" "example.test" "nghttp2/0.1.0").map Prod.fst ∧
    (submitRequestNv false 0 "/" "https" "example.test" "nghttp2/0.1.0"
        [("Host", "x"), ("User-Agent", "probe")]).filter
        (fun p => p.1 == overrideName "User-Agent") =
      [(overrideName "User-Agent", "probe")] :=
  c9_header_override false 0 "/" "https" "example.test" "nghttp2/0.1.0"
    [("Host", "x"), ("User-Agent", "probe")] "User-Agent" "probe"
    (by decide) (by decide) (by decide) (by decide)

/-- C10: with an upload body present and no user headers, total_entry_count is
    15 and the nv array has 16 slots, the valid indices being 0 through 15; but
    submit_request writes content-length into slots 14 and 15 and then the
    terminating null pointer into slot 16, one slot past the allocation: the
    accounting adds a single entry for content-length although a name and a
    value are written, so the claim that every write stays in bounds fails. -/
theorem c10_nv_terminator_overflow :
    nvAllocSize 0 true = 16 ∧
    writeIndices [] true = List.range 14 ++ [14, 15, 16] ∧
    ¬(∀ i ∈ writeIndices [] true, i < nvAllocSize 0 true) := by
  refine ⟨by decide, by decide, ?_⟩
  intro h
  have h16 := h 16 (by decide)
  rw [show nvAllocSize 0 true = 16 from by decide] at h16
  omega

end Nghttp
